import Mathlib

set_option maxRecDepth 2000

/-!
Verification of the IBWheel market-data and decision engine (`plugin.py`):
a shallow embedding of `get_stock_price`, `_get_option_chain_yf`,
`get_option_chain` and `wheel_recommendation` over exact rational
arithmetic, together with theorems settling the specified properties.

Python floats are modelled by `PyFloat` (`nan` or an exact rational;
no modelled code path manufactures an infinity, so infinities are left
out); provider responses (IB ticker readings, yfinance `info` fields and
option-chain tables, the portfolio) are explicit inputs, so every
function is a pure function of the data one run observes.  The
human-readable `description` strings of the recommendation dictionaries
are pure display formatting and are not carried in the records.
-/

/-- Values of a Python float as this code distinguishes them: `nan`, or an
exact rational.  Python truthiness: `nan` is truthy, `0.0` is falsy. -/
inductive PyFloat where
  | nan : PyFloat
  | val : ℚ → PyFloat
deriving DecidableEq

/-- Truthiness of a Python float: only `0.0` is falsy; `nan` is truthy. -/
def PyFloat.truthy : PyFloat → Bool
  | .nan => true
  | .val q => decide (q ≠ 0)

/-- Truthiness of an optional float (`None` is falsy). -/
def optTruthy : Option PyFloat → Bool
  | none => false
  | some x => x.truthy

/-- Python `a or b` on optional float values: `a` when truthy, else `b`. -/
def pyOr (a b : Option PyFloat) : Option PyFloat :=
  if optTruthy a then a else b

/-- Python `option_type.upper()` for the ASCII strings this code compares
against: upper-case every character. -/
def pyUpper (s : String) : String := ⟨s.data.map Char.toUpper⟩

/-- Python `round` on an exact rational: round half to even.  Stated with
`Rat.floor` (definitionally `⌊q⌋`, see `ratFloor_eq`) so that it evaluates
inside the kernel. -/
def pyRound (q : ℚ) : ℤ :=
  if q - (q.floor : ℚ) < 1 / 2 then q.floor
  else if 1 / 2 < q - (q.floor : ℚ) then q.floor + 1
  else if q.floor % 2 = 0 then q.floor else q.floor + 1

/-- Python `round(x, 2)`: round half to even at two decimal places. -/
def pyRound2 (q : ℚ) : ℚ := (pyRound (q * 100) : ℚ) / 100

/-- Python `int(x)` on a float: truncation toward zero. -/
def pyInt (q : ℚ) : ℤ := if 0 ≤ q then q.floor else -(-q).floor

/-- One `get_stock_price` run's view of the IB (primary) provider: whether
`_ensure_connection` succeeded, whether the IB block ran without raising
(an exception anywhere in it abandons the block without a price), and the
successive ticker readings seen by the two 10-iteration polling loops
(`marketPrice()` in real-time mode, `close` in frozen mode). -/
structure IBEnv where
  connected : Bool
  ok : Bool
  live : List PyFloat
  frozen : List PyFloat
deriving DecidableEq

/-- Condition of the polling loops, `ticker.X and not math.isnan(ticker.X)`:
a reading yields a price exactly when it is a non-zero rational (`0.0` is
falsy; `nan` is truthy but fails the `isnan` test). -/
def tickerGood : PyFloat → Option ℚ
  | .nan => none
  | .val q => if q = 0 then none else some q

/-- First reading of a list that yields a price. -/
def firstPrice : List PyFloat → Option ℚ
  | [] => none
  | v :: rest =>
    match tickerGood v with
    | some q => some q
    | none => firstPrice rest

/-- One 10-iteration polling loop over the readings it will see. -/
def pollFirst (l : List PyFloat) : Option ℚ := firstPrice (l.take 10)

/-- Price produced by the IB block of `get_stock_price`: requires a
connection and no exception; real-time poll first, frozen-data poll
second. -/
def ibPrice (ib : IBEnv) : Option ℚ :=
  if ib.connected && ib.ok then
    match pollFirst ib.live with
    | some q => some q
    | none => pollFirst ib.frozen
  else none

/-- Fields of one `yf.Ticker(symbol).info` response that the code reads
(an absent key reads as `None`). -/
structure YFInfo where
  currentPrice : Option PyFloat
  regularMarketPrice : Option PyFloat
deriving DecidableEq

/-- Embedding of `get_stock_price`: the IB block first, then yfinance
(`info.get('currentPrice') or info.get('regularMarketPrice')`, returned
when truthy), else `None`.  The argument `yfI = none` models the yfinance
call raising (caught, falling through to `return None`). -/
def get_stock_price (ib : IBEnv) (yfI : Option YFInfo) : Option PyFloat :=
  match ibPrice ib with
  | some q => some (.val q)
  | none =>
    match yfI with
    | none => none
    | some info =>
      let price := pyOr info.currentPrice info.regularMarketPrice
      if optTruthy price then price else none

/-- Row of a yfinance option-chain table, with the columns the code reads.
A cell is `none` when it is missing or NaN (`pd.notna` is false). -/
structure OptionRow where
  strike : ℚ
  bid : Option ℚ
  ask : Option ℚ
  lastPrice : Option ℚ
  impliedVolatility : Option ℚ
  delta : Option ℚ
  theta : Option ℚ
  gamma : Option ℚ
  vega : Option ℚ
  contractSymbol : String
deriving DecidableEq

/-- Tables returned by `ticker.option_chain()` for the provider-default
(nearest upcoming) expiration. -/
structure YFChain where
  puts : List OptionRow
  calls : List OptionRow
deriving DecidableEq

/-- Successful result dictionary of `_get_option_chain_yf`. -/
structure ChainOk where
  symbol : String
  stock_price : ℚ
  expiration : String
  strike : ℚ
  bid : ℚ
  ask : ℚ
  last : ℚ
  iv : ℚ
  delta : ℚ
  theta : ℚ
  gamma : ℚ
  vega : ℚ
  premium : ℚ
deriving DecidableEq

deriving instance DecidableEq for Except

/-- Reading `float(row[c]) if pd.notna(row.get(c)) and row[c] > 0 else 0`. -/
def clampPos : Option ℚ → ℚ
  | some v => if 0 < v then v else 0
  | none => 0

/-- Reading `float(row[c]) if pd.notna(row.get(c)) else 0`. -/
def orZero : Option ℚ → ℚ
  | some v => v
  | none => 0

/-- Mid-price ladder with the branches ordered exactly as in the code:
the `bid == 0 and ask == 0 and last > 0` test comes first there. -/
def midPrice (bid ask last : ℚ) : ℚ :=
  if bid = 0 ∧ ask = 0 ∧ 0 < last then last
  else if 0 < bid ∧ 0 < ask then (bid + ask) / 2
  else if 0 < bid then bid
  else if 0 < ask then ask
  else 0

/-- Expiration display fallback: the contract identifier's trailing 8
characters, when it is non-empty with at least 8 characters. -/
def expirationOf (cs : String) : String :=
  if cs ≠ "" ∧ 8 ≤ cs.length then cs.takeRight 8 else ""

/-- Target strike, `round(stock_price * (1 - otm_pct/100))` exactly when
`option_type.upper() == 'PUT'`, else the `1 + otm_pct/100` formula. -/
def targetStrike (p otm_pct : ℚ) (option_type : String) : ℤ :=
  if pyUpper option_type = "PUT" then pyRound (p * (1 - otm_pct / 100))
  else pyRound (p * (1 + otm_pct / 100))

/-- Ordering of chain rows used by `options.sort_values('strike')`. -/
def strikeLE (a b : OptionRow) : Prop := a.strike ≤ b.strike

instance : DecidableRel strikeLE := fun a b => inferInstanceAs (Decidable (a.strike ≤ b.strike))

instance : IsTotal OptionRow strikeLE := ⟨fun a b => le_total a.strike b.strike⟩

instance : IsTrans OptionRow strikeLE := ⟨fun _ _ _ h h' => le_trans h h'⟩

/-- Embedding of `options.sort_values('strike')` as an insertion sort by
strike.  Its default quicksort determines the result only up to the
relative order of rows with equal strikes; a real chain table has one
row per strike, where the two agree. -/
def sortByStrike (l : List OptionRow) : List OptionRow := List.insertionSort strikeLE l

/-- One step of locating an index of minimal `|strike - target|` (the
code takes `.abs().argsort()[:1]` of the strike distances): a candidate
replaces the current best only on a strictly smaller distance.  The
order pandas argsort gives to tied keys is implementation-defined (its
default quicksort is not stable), so this model fixes a choice — the
first minimal element of the traversal order; conclusions drawn from it
here do not depend on which minimal-distance row is picked. -/
def chooseCloser (t : ℚ) (best x : OptionRow) : OptionRow :=
  if |x.strike - t| < |best.strike - t| then x else best

/-- Row at an index of minimal `|strike - target|` (see `chooseCloser`
for the treatment of distance ties). -/
def selectClosest (t : ℚ) : List OptionRow → Option OptionRow
  | [] => none
  | a :: rest => some (rest.foldl (chooseCloser t) a)

/-- Steps of `_get_option_chain_yf` after the spot price parsed: pick the
requested table, reject an empty one, sort by strike, select the row
nearest the target, clamp the quotes, apply the mid-price ladder, and
assemble the result dictionary with `premium = mid * 100`. -/
def chainFromSpot (symbol : String) (p : ℚ) (chain : YFChain) (target : ℤ)
    (option_type : String) : Except String ChainOk :=
  let options := if pyUpper option_type = "PUT" then chain.puts else chain.calls
  if options.isEmpty then .error "無期權數據"
  else
    match selectClosest (target : ℚ) (sortByStrike options) with
    | none => .error "找不到合適的 strike"
    | some row =>
      let bid := clampPos row.bid
      let ask := clampPos row.ask
      let last := orZero row.lastPrice
      let mid := midPrice bid ask last
      .ok { symbol := symbol, stock_price := p,
            expiration := expirationOf row.contractSymbol,
            strike := row.strike, bid := bid, ask := ask, last := last,
            iv := orZero row.impliedVolatility, delta := orZero row.delta,
            theta := orZero row.theta, gamma := orZero row.gamma,
            vega := orZero row.vega, premium := mid * 100 }

/-- Embedding of `_get_option_chain_yf`: the spot comes from the chain
provider's own info (`currentPrice or regularMarketPrice`); the test
`if not stock_price` rejects `None` and `0.0`; a NaN spot passes that
test and then raises inside `round`, which the function's `except`
converts to the error string of the `ValueError`. -/
def get_option_chain_yf (symbol : String) (info : YFInfo) (chain : YFChain)
    (otm_pct : ℚ) (option_type : String) : Except String ChainOk :=
  match pyOr info.currentPrice info.regularMarketPrice with
  | none => .error "無法取得股價"
  | some .nan => .error "cannot convert float NaN to integer"
  | some (.val p) =>
    if p = 0 then .error "無法取得股價"
    else chainFromSpot symbol p chain (targetStrike p otm_pct option_type) option_type

/-- Embedding of `get_option_chain`: delegates to the yfinance resolver
and returns its result whether or not it is an error; the `expiration`
parameter is never read. -/
def get_option_chain (symbol : String) (info : YFInfo) (chain : YFChain)
    (otm_pct : ℚ) (option_type : String) (expiration : Option String) :
    Except String ChainOk :=
  get_option_chain_yf symbol info chain otm_pct option_type

/-- Stock position row as `wheel_recommendation` reads it. -/
structure Position where
  symbol : String
  shares : ℚ
deriving DecidableEq

/-- Positions check of `wheel_recommendation`: `'positions' in portfolio`
(an error dictionary has no such key) and some entry with this symbol and
strictly positive share count. -/
def hasStock (pf : Except String (List Position)) (symbol : String) : Bool :=
  match pf with
  | .error _ => false
  | .ok l => l.any fun p => p.symbol == symbol && decide (0 < p.shares)

/-- SELL_PUT recommendation record (display string omitted). -/
structure PutRec where
  symbol : String
  stock_price : PyFloat
  strike : ℚ
  premium : ℚ
  return_pct : ℚ
  max_contracts : ℤ
  max_premium : ℚ
deriving DecidableEq

/-- SELL_CALL recommendation record (display string omitted). -/
structure CallRec where
  symbol : String
  stock_price : PyFloat
  strike : ℚ
  premium : ℚ
  return_pct : ℚ
deriving DecidableEq

/-- Outcomes of a `wheel_recommendation` call: an error dictionary, an
uncaught exception (`int` of a NaN quotient raises a `ValueError` no
handler catches), or one of the two recommendation dictionaries. -/
inductive WheelOut where
  | error : String → WheelOut
  | raised : String → WheelOut
  | put : PutRec → WheelOut
  | call : CallRec → WheelOut
deriving DecidableEq

/-- Contract sizing of the CSP branch, `if cash_available:
max_contracts = int(cash_available / (stock_price * 100)) else:
max_contracts = 1`.  A `cash_available` of `None` or `0` is falsy and
takes the `else`; `int` of a NaN quotient raises (`none` here). -/
def maxContractsOf (sp : PyFloat) (cash_available : Option ℚ) : Option ℤ :=
  match cash_available with
  | none => some 1
  | some c =>
    if c = 0 then some 1
    else
      match sp with
      | .nan => none
      | .val p => some (pyInt (c / (p * 100)))

/-- CSP branch of `wheel_recommendation`: contract sizing first (the code
computes `max_contracts` before the chain request), then the PUT chain
request, the collateral-guarded return rate, and 2-decimal rounding of
the money fields. -/
def putBranch (symbol : String) (sp : PyFloat) (cash_available : Option ℚ)
    (chainI : YFInfo) (cd : YFChain) : WheelOut :=
  match maxContractsOf sp cash_available with
  | none => .raised "cannot convert float NaN to integer"
  | some max_contracts =>
    match get_option_chain symbol chainI cd 10 "PUT" none with
    | .error e => .error e
    | .ok pd =>
      let collateral := pd.strike * 100
      let return_pct := if 0 < collateral then pd.premium / collateral * 100 else 0
      .put { symbol := symbol, stock_price := sp, strike := pd.strike,
             premium := pyRound2 pd.premium, return_pct := pyRound2 return_pct,
             max_contracts := max_contracts,
             max_premium := pyRound2 (pd.premium * (max_contracts : ℚ)) }

/-- Covered-call branch of `wheel_recommendation`: the CALL chain request
and the spot-guarded return rate (a NaN spot fails the `> 0` test). -/
def callBranch (symbol : String) (sp : PyFloat) (chainI : YFInfo)
    (cd : YFChain) : WheelOut :=
  match get_option_chain symbol chainI cd 10 "CALL" none with
  | .error e => .error e
  | .ok cdo =>
    let return_pct :=
      match sp with
      | .nan => 0
      | .val p => if 0 < p then cdo.premium / p * 100 else 0
    .call { symbol := symbol, stock_price := sp, strike := cdo.strike,
            premium := pyRound2 cdo.premium, return_pct := pyRound2 return_pct }

/-- Embedding of `wheel_recommendation`: the price (with the falsy test
`if not stock_price`), then the positions check, then one of the two
branches.  Here `pf` is the `get_portfolio()` outcome and `chainI`, `cd`
the yfinance responses seen by the chain request. -/
def wheel_recommendation (symbol : String) (cash_available : Option ℚ)
    (ib : IBEnv) (yfI : Option YFInfo) (pf : Except String (List Position))
    (chainI : YFInfo) (cd : YFChain) : WheelOut :=
  match get_stock_price ib yfI with
  | none => .error ("無法取得 " ++ symbol ++ " 股價")
  | some sp =>
    if sp.truthy then
      if hasStock pf symbol then callBranch symbol sp chainI cd
      else putBranch symbol sp cash_available chainI cd
    else .error ("無法取得 " ++ symbol ++ " 股價")

/-! Helper lemmas. -/

lemma ratFloor_eq (q : ℚ) : q.floor = ⌊q⌋ := by
  rw [Rat.floor_def', Rat.floor_def]

lemma pyRound_nearest (q : ℚ) (z : ℤ) :
    |(pyRound q : ℚ) - q| ≤ |(z : ℚ) - q| := by
  have h0 : ((⌊q⌋ : ℤ) : ℚ) ≤ q := Int.floor_le q
  have h1 : q < ((⌊q⌋ : ℤ) : ℚ) + 1 := Int.lt_floor_add_one q
  have hflo : |((⌊q⌋ : ℤ) : ℚ) - q| = q - ((⌊q⌋ : ℤ) : ℚ) := by
    rw [abs_sub_comm]; exact abs_of_nonneg (by linarith)
  have hfhi : |(((⌊q⌋ : ℤ) : ℚ) + 1) - q| = (((⌊q⌋ : ℤ) : ℚ) + 1) - q :=
    abs_of_nonneg (by linarith)
  have hz : |(z : ℚ) - q| ≥ q - ((⌊q⌋ : ℤ) : ℚ) ∨
      |(z : ℚ) - q| ≥ (((⌊q⌋ : ℤ) : ℚ) + 1) - q := by
    rcases le_or_lt z ⌊q⌋ with h | h
    · left
      have hzq : (z : ℚ) ≤ ((⌊q⌋ : ℤ) : ℚ) := by exact_mod_cast h
      rw [abs_sub_comm, abs_of_nonneg (by linarith)]
      linarith
    · right
      have hzq : ((⌊q⌋ : ℤ) : ℚ) + 1 ≤ (z : ℚ) := by exact_mod_cast h
      rw [abs_of_nonneg (by linarith)]
      linarith
  unfold pyRound
  rw [ratFloor_eq]
  split_ifs with hlt hgt hev
  · rw [hflo]
    rcases hz with hz | hz
    · exact le_trans le_rfl hz
    · linarith
  · push_cast
    rw [hfhi]
    rcases hz with hz | hz <;> linarith
  · rw [hflo]
    rcases hz with hz | hz <;> linarith
  · push_cast
    rw [hfhi]
    rcases hz with hz | hz <;> linarith

lemma pyRound2_zero : pyRound2 0 = 0 := by with_unfolding_all decide

lemma tickerGood_ne_zero {v : PyFloat} {q : ℚ} (h : tickerGood v = some q) : q ≠ 0 := by
  cases v with
  | nan => exact absurd h (by simp [tickerGood])
  | val p =>
    simp only [tickerGood] at h
    split_ifs at h with hp
    cases h; exact hp

lemma firstPrice_ne_zero : ∀ {l : List PyFloat} {q : ℚ}, firstPrice l = some q → q ≠ 0 := by
  intro l
  induction l with
  | nil => intro q h; exact absurd h (by simp [firstPrice])
  | cons v rest ih =>
    intro q h
    unfold firstPrice at h
    cases hv : tickerGood v with
    | some p => rw [hv] at h; cases h; exact tickerGood_ne_zero hv
    | none => rw [hv] at h; exact ih h

lemma ibPrice_ne_zero {ib : IBEnv} {q : ℚ} (h : ibPrice ib = some q) : q ≠ 0 := by
  unfold ibPrice at h
  by_cases hc : (ib.connected && ib.ok) = true
  · rw [if_pos hc] at h
    cases hl : pollFirst ib.live with
    | some p => rw [hl] at h; cases h; exact firstPrice_ne_zero hl
    | none => rw [hl] at h; exact firstPrice_ne_zero h
  · rw [if_neg hc] at h
    exact absurd h (by simp)

lemma get_stock_price_truthy {ib : IBEnv} {yfI : Option YFInfo} {sp : PyFloat}
    (h : get_stock_price ib yfI = some sp) : sp.truthy = true := by
  unfold get_stock_price at h
  cases hib : ibPrice ib with
  | some q =>
    rw [hib] at h
    cases h
    simp [PyFloat.truthy, ibPrice_ne_zero hib]
  | none =>
    rw [hib] at h
    cases yfI with
    | none => exact absurd h (by simp)
    | some info =>
      simp only at h
      by_cases ht : optTruthy (pyOr info.currentPrice info.regularMarketPrice) = true
      · rw [if_pos ht] at h
        rw [h] at ht
        simpa [optTruthy] using ht
      · rw [if_neg ht] at h
        exact absurd h (by simp)

lemma hasStock_iff (pf : Except String (List Position)) (symbol : String) :
    hasStock pf symbol = true ↔
      ∃ l, pf = .ok l ∧ ∃ p ∈ l, p.symbol = symbol ∧ 0 < p.shares := by
  cases pf with
  | error e => simp [hasStock]
  | ok l =>
    simp only [hasStock, List.any_eq_true, Bool.and_eq_true, beq_iff_eq,
      decide_eq_true_eq]
    constructor
    · rintro ⟨p, hp, hsym, hsh⟩
      exact ⟨l, rfl, p, hp, hsym, hsh⟩
    · rintro ⟨l', hl', p, hp, hsym, hsh⟩
      cases hl'
      exact ⟨p, hp, hsym, hsh⟩

lemma maxContractsOf_ne_nan {sp : PyFloat} (cash : Option ℚ) (hnn : sp ≠ PyFloat.nan) :
    ∃ m, maxContractsOf sp cash = some m := by
  cases cash with
  | none => exact ⟨1, rfl⟩
  | some c =>
    by_cases hc : c = 0
    · exact ⟨1, by simp [maxContractsOf, hc]⟩
    · cases sp with
      | nan => exact absurd rfl hnn
      | val p => exact ⟨pyInt (c / (p * 100)), by simp [maxContractsOf, hc]⟩

lemma putBranch_eq {symbol : String} {sp : PyFloat} {cash : Option ℚ} {chainI : YFInfo}
    {cd : YFChain} {pd : ChainOk} {m : ℤ}
    (hm : maxContractsOf sp cash = some m)
    (hok : get_option_chain_yf symbol chainI cd 10 "PUT" = .ok pd) :
    putBranch symbol sp cash chainI cd =
      .put { symbol := symbol, stock_price := sp, strike := pd.strike,
             premium := pyRound2 pd.premium,
             return_pct := pyRound2
               (if 0 < pd.strike * 100 then pd.premium / (pd.strike * 100) * 100 else 0),
             max_contracts := m,
             max_premium := pyRound2 (pd.premium * (m : ℚ)) } := by
  unfold putBranch
  rw [hm]
  simp only [get_option_chain]
  rw [hok]

lemma putBranch_error {symbol : String} {sp : PyFloat} {cash : Option ℚ} {chainI : YFInfo}
    {cd : YFChain} {e : String} (hnn : sp ≠ PyFloat.nan)
    (herr : get_option_chain_yf symbol chainI cd 10 "PUT" = .error e) :
    putBranch symbol sp cash chainI cd = .error e := by
  obtain ⟨m, hm⟩ := maxContractsOf_ne_nan cash hnn
  unfold putBranch
  rw [hm]
  simp only [get_option_chain]
  rw [herr]

lemma callBranch_eq {symbol : String} {sp : PyFloat} {chainI : YFInfo}
    {cd : YFChain} {cdo : ChainOk}
    (hok : get_option_chain_yf symbol chainI cd 10 "CALL" = .ok cdo) :
    callBranch symbol sp chainI cd =
      .call { symbol := symbol, stock_price := sp, strike := cdo.strike,
              premium := pyRound2 cdo.premium,
              return_pct := pyRound2
                (match sp with
                 | .nan => 0
                 | .val p => if 0 < p then cdo.premium / p * 100 else 0) } := by
  unfold callBranch
  simp only [get_option_chain]
  rw [hok]

lemma callBranch_error {symbol : String} {sp : PyFloat} {chainI : YFInfo}
    {cd : YFChain} {e : String}
    (herr : get_option_chain_yf symbol chainI cd 10 "CALL" = .error e) :
    callBranch symbol sp chainI cd = .error e := by
  unfold callBranch
  simp only [get_option_chain]
  rw [herr]

lemma callBranch_ne_put {symbol : String} {sp : PyFloat} {chainI : YFInfo}
    {cd : YFChain} {r : PutRec} :
    callBranch symbol sp chainI cd ≠ .put r := by
  unfold callBranch
  cases h : get_option_chain_yf symbol chainI cd 10 "CALL" with
  | error e => simp only [get_option_chain]; rw [h]; exact fun hc => WheelOut.noConfusion hc
  | ok cdo => simp only [get_option_chain]; rw [h]; exact fun hc => WheelOut.noConfusion hc

lemma putBranch_ne_call {symbol : String} {sp : PyFloat} {cash : Option ℚ}
    {chainI : YFInfo} {cd : YFChain} {r : CallRec} :
    putBranch symbol sp cash chainI cd ≠ .call r := by
  unfold putBranch
  cases hm : maxContractsOf sp cash with
  | none => exact fun hc => WheelOut.noConfusion hc
  | some m =>
    cases h : get_option_chain_yf symbol chainI cd 10 "PUT" with
    | error e => simp only [get_option_chain]; rw [h]; exact fun hc => WheelOut.noConfusion hc
    | ok pd => simp only [get_option_chain]; rw [h]; exact fun hc => WheelOut.noConfusion hc

lemma wheel_eq_branch {symbol : String} {cash : Option ℚ} {ib : IBEnv}
    {yfI : Option YFInfo} {pf : Except String (List Position)} {chainI : YFInfo}
    {cd : YFChain} {sp : PyFloat} (hspot : get_stock_price ib yfI = some sp) :
    wheel_recommendation symbol cash ib yfI pf chainI cd =
      (if hasStock pf symbol then callBranch symbol sp chainI cd
       else putBranch symbol sp cash chainI cd) := by
  simp only [wheel_recommendation, hspot]
  rw [if_pos (get_stock_price_truthy hspot)]

lemma wheel_put_inv {symbol : String} {cash : Option ℚ} {ib : IBEnv}
    {yfI : Option YFInfo} {pf : Except String (List Position)} {chainI : YFInfo}
    {cd : YFChain} {r : PutRec}
    (hr : wheel_recommendation symbol cash ib yfI pf chainI cd = .put r) :
    ∃ sp, get_stock_price ib yfI = some sp ∧ hasStock pf symbol = false ∧
      putBranch symbol sp cash chainI cd = .put r := by
  cases hsp : get_stock_price ib yfI with
  | none =>
    unfold wheel_recommendation at hr
    rw [hsp] at hr
    exact absurd hr (fun hc => WheelOut.noConfusion hc)
  | some sp =>
    rw [wheel_eq_branch hsp] at hr
    by_cases hhs : hasStock pf symbol = true
    · rw [if_pos hhs] at hr
      exact absurd hr callBranch_ne_put
    · rw [if_neg hhs] at hr
      exact ⟨sp, rfl, Bool.not_eq_true _ ▸ hhs, hr⟩

lemma wheel_call_inv {symbol : String} {cash : Option ℚ} {ib : IBEnv}
    {yfI : Option YFInfo} {pf : Except String (List Position)} {chainI : YFInfo}
    {cd : YFChain} {r : CallRec}
    (hr : wheel_recommendation symbol cash ib yfI pf chainI cd = .call r) :
    ∃ sp, get_stock_price ib yfI = some sp ∧ hasStock pf symbol = true ∧
      callBranch symbol sp chainI cd = .call r := by
  cases hsp : get_stock_price ib yfI with
  | none =>
    unfold wheel_recommendation at hr
    rw [hsp] at hr
    exact absurd hr (fun hc => WheelOut.noConfusion hc)
  | some sp =>
    rw [wheel_eq_branch hsp] at hr
    by_cases hhs : hasStock pf symbol = true
    · rw [if_pos hhs] at hr
      exact ⟨sp, rfl, hhs, hr⟩
    · rw [if_neg hhs] at hr
      exact absurd hr putBranch_ne_call

lemma sortByStrike_perm (l : List OptionRow) : List.Perm (sortByStrike l) l :=
  List.perm_insertionSort strikeLE l

lemma sortByStrike_ne_nil {l : List OptionRow} (h : l ≠ []) : sortByStrike l ≠ [] := by
  intro h0
  have hp := (sortByStrike_perm l).symm
  rw [h0] at hp
  exact h hp.eq_nil

lemma chainFromSpot_premium {symbol : String} {p : ℚ} {chain : YFChain} {target : ℤ}
    {option_type : String} {r : ChainOk}
    (h : chainFromSpot symbol p chain target option_type = .ok r) :
    r.premium = midPrice r.bid r.ask r.last * 100 := by
  unfold chainFromSpot at h
  by_cases he : (if pyUpper option_type = "PUT" then chain.puts else chain.calls).isEmpty = true
  · rw [if_pos he] at h
    exact absurd h (fun hc => Except.noConfusion hc)
  · rw [if_neg he] at h
    cases hs : selectClosest (target : ℚ)
        (sortByStrike (if pyUpper option_type = "PUT" then chain.puts else chain.calls)) with
    | none => rw [hs] at h; exact absurd h (fun hc => Except.noConfusion hc)
    | some row =>
      rw [hs] at h
      cases Except.ok.inj h
      rfl

lemma chainFromSpot_ok_exists {symbol : String} {p : ℚ} {chain : YFChain} {target : ℤ}
    {option_type : String}
    (hne : (if pyUpper option_type = "PUT" then chain.puts else chain.calls) ≠ []) :
    ∃ r, chainFromSpot symbol p chain target option_type = .ok r := by
  unfold chainFromSpot
  have he : (if pyUpper option_type = "PUT" then chain.puts else chain.calls).isEmpty = false := by
    cases hop : (if pyUpper option_type = "PUT" then chain.puts else chain.calls) with
    | nil => exact absurd hop hne
    | cons x xs => rfl
  simp only [he, Bool.false_eq_true, if_false]
  obtain ⟨x, xs, hxs⟩ := List.exists_cons_of_ne_nil (sortByStrike_ne_nil hne)
  rw [hxs]
  exact ⟨_, rfl⟩

lemma get_option_chain_yf_premium {symbol : String} {info : YFInfo} {chain : YFChain}
    {otm_pct : ℚ} {option_type : String} {r : ChainOk}
    (h : get_option_chain_yf symbol info chain otm_pct option_type = .ok r) :
    r.premium = midPrice r.bid r.ask r.last * 100 := by
  cases hpo : pyOr info.currentPrice info.regularMarketPrice with
  | none =>
    simp only [get_option_chain_yf, hpo] at h
    exact absurd h (fun hc => Except.noConfusion hc)
  | some x =>
    cases x with
    | nan =>
      simp only [get_option_chain_yf, hpo] at h
      exact absurd h (fun hc => Except.noConfusion hc)
    | val p =>
      simp only [get_option_chain_yf, hpo] at h
      by_cases hp : p = 0
      · rw [if_pos hp] at h
        exact absurd h (fun hc => Except.noConfusion hc)
      · rw [if_neg hp] at h
        exact chainFromSpot_premium h

/-! Concrete fixtures used by witnesses and counterexamples. -/

def ibDown : IBEnv := { connected := false, ok := true, live := [], frozen := [] }

def wInfo50 : YFInfo := { currentPrice := some (.val 50), regularMarketPrice := none }

def yfNanInfo : YFInfo := { currentPrice := some .nan, regularMarketPrice := none }

def wRow45 : OptionRow :=
  { strike := 45, bid := some 1, ask := some (7 / 5), lastPrice := none,
    impliedVolatility := none, delta := none, theta := none, gamma := none,
    vega := none, contractSymbol := "AAA260116P00045000" }

def wChainPut : YFChain := { puts := [wRow45], calls := [wRow45] }

def wChainEmpty : YFChain := { puts := [], calls := [] }

def wPd : ChainOk :=
  { symbol := "AAA", stock_price := 50, expiration := "00045000", strike := 45,
    bid := 1, ask := 7 / 5, last := 0, iv := 0, delta := 0, theta := 0, gamma := 0,
    vega := 0, premium := 120 }

def wPutR : PutRec :=
  { symbol := "AAA", stock_price := .val 50, strike := 45, premium := 120,
    return_pct := 267 / 100, max_contracts := 2, max_premium := 240 }

/-! Claim theorems. -/

/-- C9: the public `get_option_chain` operation ignores its `expiration`
parameter entirely — for every symbol, info response, chain data, OTM
percentage and option type, any two expiration arguments yield identical
results (the chain is always the provider-default nearest expiration). -/
theorem get_option_chain_ignores_expiration (symbol : String) (info : YFInfo)
    (chain : YFChain) (otm_pct : ℚ) (option_type : String)
    (e₁ e₂ : Option String) :
    get_option_chain symbol info chain otm_pct option_type e₁ =
      get_option_chain symbol info chain otm_pct option_type e₂ := rfl

/-- C10: every option type string whose upper-cased value is not exactly
PUT is treated as CALL — the target strike uses the `1 + otm_pct/100`
formula and the resolver behaves identically to a CALL request; there is
no rejection of unrecognised option types at this interface. -/
theorem non_put_option_type_treated_as_call (symbol : String) (info : YFInfo)
    (chain : YFChain) (otm_pct : ℚ) (option_type : String) (p : ℚ)
    (h : pyUpper option_type ≠ "PUT") :
    targetStrike p otm_pct option_type = pyRound (p * (1 + otm_pct / 100)) ∧
    get_option_chain_yf symbol info chain otm_pct option_type =
      get_option_chain_yf symbol info chain otm_pct "CALL" := by
  have hc : ¬ (pyUpper "CALL" = "PUT") := by decide
  constructor
  · simp only [targetStrike]
    rw [if_neg h]
  · unfold get_option_chain_yf chainFromSpot targetStrike
    simp only [h, hc, if_false]

/-- C10 witness: the option type cAlL (upper-cased: CALL, not PUT) gets
the CALL target-strike formula and the CALL table. -/
theorem non_put_option_type_treated_as_call_witness :
    targetStrike 50 10 "cAlL" = pyRound (50 * (1 + 10 / 100)) ∧
    get_option_chain_yf "AAA" wInfo50 wChainPut 10 "cAlL" =
      get_option_chain_yf "AAA" wInfo50 wChainPut 10 "CALL" :=
  non_put_option_type_treated_as_call "AAA" wInfo50 wChainPut 10 "cAlL" 50 (by decide)

/-- C3: the mid-price ladder is total and deterministic over all
nonnegative bid, ask, last — it equals the spec's ordered ladder (both
positive → average; only bid → bid; only ask → ask; else a positive last;
else 0); every successful chain result carries `premium = mid * 100`; and
a request whose filtered table is non-empty yields a contract rather than
an error, even when the mid is 0. -/
theorem mid_price_ladder (b a l : ℚ) (hb : 0 ≤ b) (ha : 0 ≤ a) (hl : 0 ≤ l) :
    midPrice b a l = (if 0 < b ∧ 0 < a then (b + a) / 2
      else if 0 < b then b
      else if 0 < a then a
      else if 0 < l then l else 0) ∧
    (∀ symbol info chain otm_pct option_type r,
      get_option_chain_yf symbol info chain otm_pct option_type = .ok r →
      r.premium = midPrice r.bid r.ask r.last * 100) ∧
    (∀ symbol (p : ℚ) chain target option_type,
      (if pyUpper option_type = "PUT" then chain.puts else chain.calls) ≠ [] →
      ∃ r, chainFromSpot symbol p chain target option_type = .ok r) := by
  refine ⟨?_, fun symbol info chain otm_pct option_type r h =>
      get_option_chain_yf_premium h,
    fun symbol p chain target option_type hne => chainFromSpot_ok_exists hne⟩
  unfold midPrice
  by_cases h1 : 0 < b
  · by_cases h2 : 0 < a
    · rw [if_neg (fun hc => h1.ne' hc.1), if_pos ⟨h1, h2⟩, if_pos ⟨h1, h2⟩]
    · rw [if_neg (fun hc => h1.ne' hc.1), if_neg (fun hc => h2 hc.2), if_pos h1,
        if_neg (fun hc => h2 hc.2), if_pos h1]
  · have hb0 : b = 0 := le_antisymm (not_lt.mp h1) hb
    by_cases h2 : 0 < a
    · rw [if_neg (fun hc => h2.ne' hc.2.1), if_neg (fun hc => h1 hc.1), if_neg h1,
        if_pos h2, if_neg (fun hc => h1 hc.1), if_neg h1, if_pos h2]
    · have ha0 : a = 0 := le_antisymm (not_lt.mp h2) ha
      by_cases h3 : 0 < l
      · rw [if_pos ⟨hb0, ha0, h3⟩, if_neg (fun hc => h1 hc.1), if_neg h1, if_neg h2,
          if_pos h3]
      · rw [if_neg (fun hc => h3 hc.2.2), if_neg (fun hc => h1 hc.1), if_neg h1,
          if_neg h2, if_neg (fun hc => h1 hc.1), if_neg h1, if_neg h2, if_neg h3]

/-- C3 witness: a chain with a non-empty PUT table yields a contract. -/
theorem mid_price_ladder_witness :
    ∃ r, chainFromSpot "AAA" 50 wChainPut 45 "PUT" = Except.ok r :=
  (mid_price_ladder 0 0 0 le_rfl le_rfl le_rfl).2.2 "AAA" 50 wChainPut 45 "PUT"
    (by with_unfolding_all decide)

/-- C6: for every spot price p > 0 and OTM percentage k, the target strike
is `round(p * (1 - k/100))` for PUT and `round(p * (1 + k/100))` for CALL
(Python's `round`, a nearest-integer rounding: no integer is strictly
closer), and the resolver computes it from the chain provider's own spot
price (its info response), handing exactly that target to the selection
stage. -/
theorem target_strike_formula (p k : ℚ) (hp : 0 < p) :
    targetStrike p k "PUT" = pyRound (p * (1 - k / 100)) ∧
    targetStrike p k "CALL" = pyRound (p * (1 + k / 100)) ∧
    (∀ z : ℤ, |(pyRound (p * (1 - k / 100)) : ℚ) - p * (1 - k / 100)| ≤
      |(z : ℚ) - p * (1 - k / 100)|) ∧
    (∀ z : ℤ, |(pyRound (p * (1 + k / 100)) : ℚ) - p * (1 + k / 100)| ≤
      |(z : ℚ) - p * (1 + k / 100)|) ∧
    ∀ symbol info chain option_type,
      pyOr info.currentPrice info.regularMarketPrice = some (.val p) →
      get_option_chain_yf symbol info chain k option_type =
        chainFromSpot symbol p chain (targetStrike p k option_type) option_type := by
  refine ⟨by simp only [targetStrike]; rw [if_pos (by decide)],
    by simp only [targetStrike]; rw [if_neg (by decide)],
    fun z => pyRound_nearest _ z, fun z => pyRound_nearest _ z, ?_⟩
  intro symbol info chain option_type hpo
  simp only [get_option_chain_yf, hpo]
  rw [if_neg hp.ne']

/-- C6 witness: spot 45, OTM 10 percent: the PUT target is
`round(40.5) = 40` (half to even), and 40 is no farther from 40.5 than
the integer 41 is. -/
theorem target_strike_formula_witness :
    targetStrike 45 10 "PUT" = pyRound (45 * (1 - 10 / 100)) ∧
    |(pyRound ((45 : ℚ) * (1 - 10 / 100)) : ℚ) - 45 * (1 - 10 / 100)| ≤
      |((41 : ℤ) : ℚ) - 45 * (1 - 10 / 100)| :=
  ⟨(target_strike_formula 45 10 (by norm_num)).1,
   (target_strike_formula 45 10 (by norm_num)).2.2.1 41⟩

/-- C4 counterexample: the claim says the resolver only returns positive,
finite prices.  With IB unavailable and yfinance reporting a NaN
currentPrice, `get_stock_price` returns NaN (NaN is truthy in Python and
the yfinance path has no isnan check); with a negative live IB reading it
returns that negative price. -/
theorem get_stock_price_not_positive_finite_cex :
    get_stock_price ibDown (some yfNanInfo) = some PyFloat.nan ∧
    get_stock_price { connected := true, ok := true, live := [PyFloat.val (-5)], frozen := [] }
        none = some (PyFloat.val (-5)) := by
  with_unfolding_all decide

/-- C4 amended: `get_stock_price` never returns the price 0.0 (Python
truthiness filters it on every path), and when both sources fail — the IB
block yields nothing and the yfinance price is falsy or the yfinance call
raises — the result is `None` (Unavailable), not zero.  Positivity and
finiteness are not guaranteed: the secondary path passes NaN and negative
values through (see the counterexample). -/
theorem get_stock_price_never_zero (ib : IBEnv) (yfI : Option YFInfo) :
    get_stock_price ib yfI ≠ some (PyFloat.val 0) ∧
    (∀ info, yfI = some info → ibPrice ib = none →
      optTruthy (pyOr info.currentPrice info.regularMarketPrice) = false →
      get_stock_price ib yfI = none) ∧
    (yfI = none → ibPrice ib = none → get_stock_price ib yfI = none) := by
  refine ⟨?_, ?_, ?_⟩
  · intro h
    have ht := get_stock_price_truthy h
    simp [PyFloat.truthy] at ht
  · intro info hinfo hib hfalse
    subst hinfo
    simp [get_stock_price, hib, hfalse]
  · intro hinfo hib
    subst hinfo
    simp [get_stock_price, hib]

/-- C5: with a resolved non-NaN spot price and both chain requests able to
succeed, branch selection is a pure function of the requested symbol's
share count: the SELL_CALL branch is taken iff the portfolio resolves and
holds a strictly positive share count for the symbol; a count of 0, a
short (negative) count and an unavailable portfolio all yield a SELL_PUT
recommendation rather than a failure. -/
theorem branch_selection_by_shares (symbol : String) (cash : Option ℚ)
    (ib : IBEnv) (yfI : Option YFInfo) (pf : Except String (List Position))
    (chainI : YFInfo) (cd : YFChain) (sp : PyFloat)
    (hspot : get_stock_price ib yfI = some sp) (hnn : sp ≠ PyFloat.nan)
    (hput : ∃ x, get_option_chain_yf symbol chainI cd 10 "PUT" = .ok x)
    (hcall : ∃ y, get_option_chain_yf symbol chainI cd 10 "CALL" = .ok y) :
    ((∃ r, wheel_recommendation symbol cash ib yfI pf chainI cd = .call r) ↔
      ∃ pl, pf = .ok pl ∧ ∃ pos ∈ pl, pos.symbol = symbol ∧ 0 < pos.shares) ∧
    ((∃ r, wheel_recommendation symbol cash ib yfI pf chainI cd = .put r) ↔
      ¬ ∃ pl, pf = .ok pl ∧ ∃ pos ∈ pl, pos.symbol = symbol ∧ 0 < pos.shares) := by
  obtain ⟨pd, hpd⟩ := hput
  obtain ⟨cdo, hcdo⟩ := hcall
  rw [wheel_eq_branch hspot]
  by_cases hhs : hasStock pf symbol = true
  · rw [if_pos hhs]
    have hpos := (hasStock_iff pf symbol).mp hhs
    exact ⟨⟨fun _ => hpos, fun _ => ⟨_, callBranch_eq hcdo⟩⟩,
      ⟨fun ⟨r, hr⟩ => absurd hr callBranch_ne_put, fun hne => absurd hpos hne⟩⟩
  · rw [if_neg hhs]
    have hnpos : ¬ ∃ pl, pf = .ok pl ∧ ∃ pos ∈ pl, pos.symbol = symbol ∧ 0 < pos.shares :=
      fun hpos => hhs ((hasStock_iff pf symbol).mpr hpos)
    obtain ⟨m, hm⟩ := maxContractsOf_ne_nan cash hnn
    exact ⟨⟨fun ⟨r, hr⟩ => absurd hr putBranch_ne_call, fun hpos => absurd hpos hnpos⟩,
      ⟨fun _ => hnpos, fun _ => ⟨_, putBranch_eq hm hpd⟩⟩⟩

/-- C5 witness: a portfolio long 50 shares of the symbol takes the
SELL_CALL branch. -/
theorem branch_selection_by_shares_witness :
    ∃ r, wheel_recommendation "AAA" none ibDown (some wInfo50)
      (.ok [{ symbol := "AAA", shares := 50 }]) wInfo50 wChainPut = WheelOut.call r := by
  have h := branch_selection_by_shares "AAA" none ibDown (some wInfo50)
    (.ok [{ symbol := "AAA", shares := 50 }]) wInfo50 wChainPut (.val 50)
    (by with_unfolding_all decide) (by decide)
    ⟨wPd, by with_unfolding_all decide⟩ ⟨wPd, by with_unfolding_all decide⟩
  exact h.1.mpr ⟨[{ symbol := "AAA", shares := 50 }], rfl,
    { symbol := "AAA", shares := 50 }, by simp, rfl, by norm_num⟩

/-- C7: an error value from the chain resolver short-circuits
`wheel_recommendation` and is returned verbatim — the same error value —
in both the SELL_PUT and SELL_CALL branches; the recommendation performs
a single chain resolution, with no retry. -/
theorem chain_error_short_circuits (symbol : String) (cash : Option ℚ)
    (ib : IBEnv) (yfI : Option YFInfo) (pf : Except String (List Position))
    (chainI : YFInfo) (cd : YFChain) (sp : PyFloat) (e : String)
    (hspot : get_stock_price ib yfI = some sp) (hnn : sp ≠ PyFloat.nan) :
    (hasStock pf symbol = false →
      get_option_chain_yf symbol chainI cd 10 "PUT" = .error e →
      wheel_recommendation symbol cash ib yfI pf chainI cd = .error e) ∧
    (hasStock pf symbol = true →
      get_option_chain_yf symbol chainI cd 10 "CALL" = .error e →
      wheel_recommendation symbol cash ib yfI pf chainI cd = .error e) := by
  rw [wheel_eq_branch hspot]
  constructor
  · intro hhs herr
    rw [hhs]
    simp only [Bool.false_eq_true, if_false]
    exact putBranch_error hnn herr
  · intro hhs herr
    rw [if_pos hhs]
    exact callBranch_error herr

/-- C7 witness: IB down, both option tables empty — the chain resolver's
NoOptionData error string is returned verbatim by the recommendation. -/
theorem chain_error_short_circuits_witness :
    wheel_recommendation "AAA" none ibDown (some wInfo50) (.error "no IB") wInfo50
      wChainEmpty = WheelOut.error "無期權數據" := by
  have h := chain_error_short_circuits "AAA" none ibDown (some wInfo50) (.error "no IB")
    wInfo50 wChainEmpty (.val 50) "無期權數據" (by with_unfolding_all decide) (by decide)
  exact h.1 (by decide) (by with_unfolding_all rfl)

/-- C8: in the published SELL_PUT recommendation the return percentage is
the collateral-guarded `premium / (strike*100) * 100` (rounded to 2
decimals), and is exactly 0 when the strike is 0 — the division is
guarded, no division by zero is evaluated; in the SELL_CALL
recommendation it is the spot-guarded `premium / spot * 100` with 0 when
the spot is not positive; and the premium field is rounded to 2 decimal
places in both recommendations. -/
theorem return_pct_guard_and_rounding (symbol : String) (cash : Option ℚ)
    (ib : IBEnv) (yfI : Option YFInfo) (pf : Except String (List Position))
    (chainI : YFInfo) (cd : YFChain) :
    (∀ r pd, wheel_recommendation symbol cash ib yfI pf chainI cd = .put r →
      get_option_chain_yf symbol chainI cd 10 "PUT" = .ok pd →
      r.premium = pyRound2 pd.premium ∧
      r.return_pct = pyRound2
        (if 0 < pd.strike * 100 then pd.premium / (pd.strike * 100) * 100 else 0) ∧
      (pd.strike = 0 → r.return_pct = 0)) ∧
    (∀ r cdo, wheel_recommendation symbol cash ib yfI pf chainI cd = .call r →
      get_option_chain_yf symbol chainI cd 10 "CALL" = .ok cdo →
      r.premium = pyRound2 cdo.premium ∧
      r.return_pct = pyRound2
        (match r.stock_price with
         | .nan => 0
         | .val p => if 0 < p then cdo.premium / p * 100 else 0)) := by
  constructor
  · intro r pd hr hok
    obtain ⟨sp, hsp, hhs, hpb⟩ := wheel_put_inv hr
    unfold putBranch at hpb
    cases hm : maxContractsOf sp cash with
    | none => rw [hm] at hpb; exact absurd hpb (fun hc => WheelOut.noConfusion hc)
    | some m =>
      rw [hm] at hpb
      simp only [get_option_chain] at hpb
      rw [hok] at hpb
      cases WheelOut.put.inj hpb
      refine ⟨rfl, rfl, fun hs0 => ?_⟩
      rw [hs0]
      simp [pyRound2_zero]
  · intro r cdo hr hok
    obtain ⟨sp, hsp, hhs, hcb⟩ := wheel_call_inv hr
    unfold callBranch at hcb
    simp only [get_option_chain] at hcb
    rw [hok] at hcb
    cases WheelOut.call.inj hcb
    exact ⟨rfl, rfl⟩

/-- C1 counterexample: spot 50 (positive) and `availableCash = 0`
explicitly provided.  The claim predicts `max_contracts = floor(0 /
(50*100)) = 0`, but `if cash_available:` is falsy at 0, so the code takes
the omitted-cash branch and returns `max_contracts = 1`. -/
theorem max_contracts_zero_cash_cex :
    wheel_recommendation "AAA" (some 0) ibDown (some wInfo50) (.error "no IB")
      wInfo50 wChainPut =
      WheelOut.put { symbol := "AAA", stock_price := .val 50, strike := 45,
                     premium := 120, return_pct := 267 / 100, max_contracts := 1,
                     max_premium := 120 } := by
  with_unfolding_all decide

/-- C1 amended: in a SELL_PUT recommendation with resolved spot price
p > 0, a provided nonzero `availableCash = c` gives `max_contracts =
int(c / (p * 100))` — truncation toward zero, which equals
`floor(c / (p * 100))` for c ≥ 0; `availableCash = 0` is falsy and
behaves like an omitted cash, giving `max_contracts = 1` (not 0); and
`max_premium` is `premium * max_contracts` rounded to 2 decimal
places. -/
theorem max_contracts_amended (symbol : String) (cash : Option ℚ) (ib : IBEnv)
    (yfI : Option YFInfo) (pf : Except String (List Position)) (chainI : YFInfo)
    (cd : YFChain) (p : ℚ) (pd : ChainOk) (r : PutRec)
    (hspot : get_stock_price ib yfI = some (.val p)) (hp : 0 < p)
    (hok : get_option_chain_yf symbol chainI cd 10 "PUT" = .ok pd)
    (hr : wheel_recommendation symbol cash ib yfI pf chainI cd = .put r) :
    (∀ c, cash = some c → c ≠ 0 → r.max_contracts = pyInt (c / (p * 100))) ∧
    (∀ c, cash = some c → 0 ≤ c → c ≠ 0 → r.max_contracts = ⌊c / (p * 100)⌋) ∧
    ((cash = none ∨ cash = some 0) → r.max_contracts = 1) ∧
    r.max_premium = pyRound2 (pd.premium * (r.max_contracts : ℚ)) := by
  obtain ⟨sp, hsp, hhs, hpb⟩ := wheel_put_inv hr
  rw [hspot] at hsp
  obtain rfl := (Option.some.inj hsp).symm
  unfold putBranch at hpb
  cases hm : maxContractsOf (.val p) cash with
  | none => rw [hm] at hpb; exact absurd hpb (fun hc => WheelOut.noConfusion hc)
  | some m =>
    rw [hm] at hpb
    simp only [get_option_chain] at hpb
    rw [hok] at hpb
    cases WheelOut.put.inj hpb
    refine ⟨?_, ?_, ?_, rfl⟩
    · intro c hc hc0
      subst hc
      simp only [maxContractsOf, if_neg hc0] at hm
      exact (Option.some.inj hm).symm
    · intro c hc hcnn hc0
      subst hc
      simp only [maxContractsOf, if_neg hc0] at hm
      have hq : 0 ≤ c / (p * 100) := div_nonneg hcnn (by positivity)
      rw [← Option.some.inj hm]
      simp only [pyInt]
      rw [if_pos hq, ratFloor_eq]
    · rintro (rfl | rfl)
      · simp only [maxContractsOf] at hm
        exact (Option.some.inj hm).symm
      · simp only [maxContractsOf, if_pos rfl] at hm
        exact (Option.some.inj hm).symm

/-- C1 witness: cash 12000 with spot 50 sizes `max_contracts =
int(12000/5000) = floor(12000/5000) = 2` and rounds `max_premium =
premium * 2` to 2 decimals. -/
theorem max_contracts_amended_witness :
    wPutR.max_contracts = pyInt (12000 / (50 * 100)) ∧
    wPutR.max_contracts = ⌊(12000 : ℚ) / (50 * 100)⌋ ∧
    wPutR.max_premium = pyRound2 (wPd.premium * (wPutR.max_contracts : ℚ)) := by
  have h := max_contracts_amended "AAA" (some 12000) ibDown (some wInfo50)
    (.error "no IB") wInfo50 wChainPut 50 wPd wPutR
    (by with_unfolding_all decide) (by norm_num)
    (by with_unfolding_all decide) (by with_unfolding_all decide)
  exact ⟨h.1 12000 rfl (by norm_num), h.2.1 12000 rfl (by norm_num) (by norm_num),
    h.2.2.2⟩
